import Mathlib

/-!
Shallow embedding of the image compression tool (web worker + dispatch manager).

Source files embedded here:
- the worker source (`getImageOrientation`, `applyOrientation`, `processImage`);
- `src/main.ts` (`ImageCompressionTool`: `startCompression`, `processNext`,
  `handleWorkerMessage`).

Conventions of the embedding:
- A byte buffer (JS `ArrayBuffer` viewed through `DataView`) is a `List Nat`.
- `DataView.getUint16` / `DataView.getUint32` throw a `RangeError` in JS when
  any accessed byte is out of range; the embedding returns `Option Nat`, with
  `none` standing for the thrown `RangeError`.
- A JS function that may throw is embedded as `Except Unit _` (the exception
  carries no information the claims need).
- JS `number` arithmetic in the scaling code is modelled over `ℚ`
  (exact rational arithmetic, the standard idealisation of JS doubles).
-/

namespace ImageTool

instance : DecidableEq (Except Unit Nat) := fun a b =>
  match a, b with
  | .error (), .error () => isTrue rfl
  | .ok x, .ok y =>
    if h : x = y then isTrue (by rw [h]) else isFalse (fun hh => h (Except.ok.inj hh))
  | .error (), .ok _ => isFalse (fun h => Except.noConfusion h)
  | .ok _, .error () => isFalse (fun h => Except.noConfusion h)

/-- DataView.getUint16(offset, littleEndian): reads bytes `off`, `off+1`;
`none` models the RangeError thrown on an out-of-range access. -/
def getUint16 (b : List Nat) (off : Nat) (little : Bool) : Option Nat := do
  let x ← b.get? off
  let y ← b.get? (off + 1)
  pure (if little then y * 256 + x else x * 256 + y)

/-- DataView.getUint32(offset, littleEndian): reads bytes `off` .. `off+3`. -/
def getUint32 (b : List Nat) (off : Nat) (little : Bool) : Option Nat := do
  let x0 ← b.get? off
  let x1 ← b.get? (off + 1)
  let x2 ← b.get? (off + 2)
  let x3 ← b.get? (off + 3)
  pure (if little then x3 * 16777216 + x2 * 65536 + x1 * 256 + x0
        else x0 * 16777216 + x1 * 65536 + x2 * 256 + x3)

/-- The `for (let i = 0; i < tagCount; i++)` loop of `getImageOrientation`:
walks the IFD tag entries at `dirBase = tiffOffset + ifdOffset`, entry `i` at
`dirBase + 2 + i * 12`; on tag 0x0112 returns `getUint16(tagOffset + 8)`.
`remaining` counts the iterations left (`tagCount - i`), making the recursion
structural. Falling off the loop reaches the `break` and then `return 1`. -/
def tagSearch (b : List Nat) (little : Bool) (dirBase : Nat) :
    Nat → Nat → Except Unit Nat
  | 0, _ => .ok 1
  | remaining + 1, i =>
    let tagOffset := dirBase + 2 + i * 12
    match getUint16 b tagOffset little with
    | none => .error ()
    | some tag =>
      if tag = 0x0112 then
        match getUint16 b (tagOffset + 8) little with
        | none => .error ()
        | some v => .ok v
      else tagSearch b little dirBase remaining (i + 1)

/-- The `marker === 0xFFE1` branch of `getImageOrientation`, entered with
`off` pointing just past the skipped 2-byte segment length: checks the
4-byte Exif signature, reads the TIFF byte-order mark at `tiffOffset`,
the IFD offset, the tag count, and runs the tag loop. The JS `break`
after this branch makes every non-throwing fall-through `return 1`. -/
def parseExif (b : List Nat) (off : Nat) : Except Unit Nat :=
  match getUint32 b off false with
  | none => .error ()
  | some sig =>
    if sig = 0x45786966 then
      let tiffOffset := off + 6
      match getUint16 b tiffOffset false with
      | none => .error ()
      | some bom =>
        let littleEndian := bom = 0x4949
        match getUint32 b (tiffOffset + 4) littleEndian with
        | none => .error ()
        | some ifdOffset =>
          match getUint16 b (tiffOffset + ifdOffset) littleEndian with
          | none => .error ()
          | some tagCount =>
            tagSearch b littleEndian (tiffOffset + ifdOffset) tagCount 0
    else .ok 1

/-- The `while (offset < length)` marker/length walk of `getImageOrientation`.
Each iteration reads the 2-byte marker at `offset` (advancing by 2); an
`0xFFE1` marker skips the 2-byte length and enters the Exif branch (which
always ends in `break`); a marker whose high byte is not `0xFF` breaks;
otherwise `offset += getUint16(offset)` skips the segment. `fuel` bounds the
number of iterations; exhausted fuel behaves like the loop exit (`return 1`),
and `scanLoop_stable` below shows any `fuel ≥ b.length - offset` gives the
same answer, so `getImageOrientation` runs it with `fuel = b.length`. -/
def scanLoop (b : List Nat) : Nat → Nat → Except Unit Nat
  | 0, _ => .ok 1
  | fuel + 1, offset =>
    if offset < b.length then
      match getUint16 b offset false with
      | none => .error ()
      | some marker =>
        if marker = 0xFFE1 then parseExif b (offset + 4)
        else if ¬(marker &&& 0xFF00 = 0xFF00) then .ok 1
        else
          match getUint16 b (offset + 2) false with
          | none => .error ()
          | some len => scanLoop b fuel (offset + 2 + len)
    else .ok 1

/-- getImageOrientation(buffer): `.error ()` models a thrown `RangeError`
(the JS code performs unguarded DataView reads), `.ok v` a normal return. -/
def getImageOrientation (b : List Nat) : Except Unit Nat :=
  match getUint16 b 0 false with
  | none => .error ()
  | some soi =>
    if soi ≠ 0xFFD8 then .ok 1
    else scanLoop b b.length 2

/-- A 32-byte buffer: SOI, APP1 marker, segment length, "Exif", padding,
big-endian TIFF header, IFD offset 8, one IFD entry carrying orientation
tag 0x0112 whose 16-bit value field is 9 (outside the legal range 1..8). -/
def exifBuf9 : List Nat :=
  [0xFF, 0xD8, 0xFF, 0xE1, 0x00, 0x1E, 0x45, 0x78, 0x69, 0x66, 0x00, 0x00,
   0x4D, 0x4D, 0x00, 0x2A, 0x00, 0x00, 0x00, 0x08, 0x00, 0x01, 0x01, 0x12,
   0x00, 0x03, 0x00, 0x00, 0x00, 0x01, 0x00, 0x09]

/-- Same layout as `exifBuf9` but with orientation value 6 (a legal code). -/
def exifBuf6 : List Nat :=
  [0xFF, 0xD8, 0xFF, 0xE1, 0x00, 0x1E, 0x45, 0x78, 0x69, 0x66, 0x00, 0x00,
   0x4D, 0x4D, 0x00, 0x2A, 0x00, 0x00, 0x00, 0x08, 0x00, 0x01, 0x01, 0x12,
   0x00, 0x03, 0x00, 0x00, 0x00, 0x01, 0x00, 0x06]

/-- Math.round for the nonnegative values produced by the scaling code:
`⌊q + 1/2⌋` written directly on the rational's numerator and denominator
(for `q ≥ 0` integer division `(2 num + den) / (2 den)` is that floor). -/
def jsRound (q : ℚ) : Nat := (((2 * q.num + (q.den : Int)) / (2 * (q.den : Int))) : Int).toNat

/-- Lines 117-125 of the worker source: the bounding-box scaling of
`processImage`. `if (width > maxWidth || height > maxHeight)` rescales both
dimensions by `Math.min(maxWidth / width, maxHeight / height)` and rounds;
otherwise the original dimensions pass through. -/
def planDimensions (width height maxWidth maxHeight : Nat) : Nat × Nat :=
  if maxWidth < width ∨ maxHeight < height then
    (jsRound ((width : ℚ) * min ((maxWidth : ℚ) / (width : ℚ)) ((maxHeight : ℚ) / (height : ℚ))),
     jsRound ((height : ℚ) * min ((maxWidth : ℚ) / (width : ℚ)) ((maxHeight : ℚ) / (height : ℚ))))
  else (width, height)

/-- The Transform Planner scaling as worded by the spec (section 4.2): scaled
dimensions are "computed only when at least one original dimension exceeds its
bound (scale factor = min(maxWidth/width, maxHeight/height), applied uniformly,
rounded to nearest integer pixel; otherwise original dimensions pass through
unchanged)". Stated for comparison against `planDimensions` (from the code). -/
def specPlanDimensions (width height maxWidth maxHeight : Nat) : Nat × Nat :=
  if width ≤ maxWidth ∧ height ≤ maxHeight then (width, height)
  else
    (jsRound ((width : ℚ) * min ((maxWidth : ℚ) / (width : ℚ)) ((maxHeight : ℚ) / (height : ℚ))),
     jsRound ((height : ℚ) * min ((maxWidth : ℚ) / (width : ℚ)) ((maxHeight : ℚ) / (height : ℚ))))

/-- An HTMLCanvasElement / OffscreenCanvas, reduced to its dimensions. -/
structure Canvas where
  width : Nat
  height : Nat
  deriving DecidableEq

/-- A 2D affine context transform `(a, b, c, d, e, f)` as passed to
`ctx.transform`. -/
abbrev Transform := Int × Int × Int × Int × Int × Int

/-- applyOrientation(canvas, ctx, orientation): destructures `width`/`height`
from the canvas at entry, then per orientation code sets the context transform
and, for codes 5-8, assigns `canvas.width = height; canvas.height = width`
(the entry values). Returns the canvas after those assignments together with
the transform set on the context (identity when no case matches, since the
context starts with the identity transform). -/
def applyOrientation (canvas : Canvas) (orientation : Nat) : Canvas × Transform :=
  let width := canvas.width
  let height := canvas.height
  match orientation with
  | 2 => (canvas, (-1, 0, 0, 1, (width : Int), 0))
  | 3 => (canvas, (-1, 0, 0, -1, (width : Int), (height : Int)))
  | 4 => (canvas, (1, 0, 0, -1, 0, (height : Int)))
  | 5 => (⟨height, width⟩, (0, 1, 1, 0, 0, 0))
  | 6 => (⟨height, width⟩, (0, 1, -1, 0, (height : Int), 0))
  | 7 => (⟨height, width⟩, (0, -1, -1, 0, (height : Int), (width : Int)))
  | 8 => (⟨height, width⟩, (0, -1, 1, 0, 0, (width : Int)))
  | _ => (canvas, (1, 0, 0, 1, 0, 0))

/-- Options carried by a job message. -/
structure ImageProcessingOptions where
  quality : ℚ
  maxWidth : Nat
  maxHeight : Nat
  format : String
  deriving DecidableEq

/-- ProcessImageMessage: one job as posted to a worker. -/
structure ProcessImageMessage where
  id : String
  imageData : List Nat
  filename : String
  options : ImageProcessingOptions
  deriving DecidableEq

/-- A width/height pair as reported in results. -/
structure Dimensions where
  width : Nat
  height : Nat
  deriving DecidableEq

/-- ProcessImageResult: the single result a worker posts back per job.
`compressedData = none` models the absent optional field, `error = none`
the absent error field. -/
structure ProcessImageResult where
  id : String
  success : Bool
  originalSize : Nat
  compressedSize : Nat
  originalDimensions : Dimensions
  compressedDimensions : Dimensions
  compressedData : Option (List Nat)
  filename : String
  error : Option String
  deriving DecidableEq

/-- The browser primitives `processImage` calls that can reject or throw:
`createImageBitmap` (decode) yields the bitmap's dimensions or a decode
error; `canvas.convertToBlob` + `blob.arrayBuffer` (encode) yields the
encoded bytes or an encode error, given the canvas (after
`applyOrientation`), the context transform, the `drawImage` target size
(the pre-swap scaled width/height), the mime type, and the quality argument
(`none` when the JS code passes `undefined` for png). -/
structure WorkerEnv where
  createImageBitmap : List Nat → Except String Dimensions
  convertToBlob : Canvas → Transform → Nat × Nat → String → Option ℚ → Except String (List Nat)

/-- The catch-block of `processImage`: the failure result built from the
caught exception's message. -/
def failureResult (data : ProcessImageMessage) (msg : String) : ProcessImageResult :=
  { id := data.id
    success := false
    originalSize := 0
    compressedSize := 0
    originalDimensions := ⟨0, 0⟩
    compressedDimensions := ⟨0, 0⟩
    compressedData := none
    filename := data.filename
    error := some msg }

/-- processImage(data): decode via `createImageBitmap`, read the orientation
(whose `RangeError` is caught by the surrounding try/catch), plan the scaled
dimensions, pre-swap the canvas dimensions for orientation > 4, run
`applyOrientation`, draw, and encode. Any failure lands in the catch block
and produces `failureResult`. -/
def processImage (env : WorkerEnv) (data : ProcessImageMessage) : ProcessImageResult :=
  match env.createImageBitmap data.imageData with
  | .error e => failureResult data e
  | .ok bitmap =>
    match getImageOrientation data.imageData with
    | .error () => failureResult data "RangeError"
    | .ok orientation =>
      let wh := planDimensions bitmap.width bitmap.height data.options.maxWidth data.options.maxHeight
      let width := wh.1
      let height := wh.2
      let needsRotation := orientation > 4
      let displayWidth := if needsRotation then height else width
      let displayHeight := if needsRotation then width else height
      let canvas : Canvas := ⟨displayWidth, displayHeight⟩
      let ct := applyOrientation canvas orientation
      let mimeType := if data.options.format = "png" then "image/png"
        else if data.options.format = "webp" then "image/webp" else "image/jpeg"
      let qualityArg : Option ℚ :=
        if data.options.format = "png" then none else some data.options.quality
      match env.convertToBlob ct.1 ct.2 (width, height) mimeType qualityArg with
      | .error e => failureResult data e
      | .ok compressedData =>
        { id := data.id
          success := true
          originalSize := data.imageData.length
          compressedSize := compressedData.length
          originalDimensions := ⟨bitmap.width, bitmap.height⟩
          compressedDimensions := ⟨displayWidth, displayHeight⟩
          compressedData := some compressedData
          filename := data.filename
          error := none }

/-- A worker slot of the coordinator: the `workerStatus` busy flag paired
with the ids of the job messages posted to this worker and not yet answered
(the worker's mailbox — the code itself keeps no such list, which is exactly
why "at most one job per slot" is a property to prove, not a typing fact). -/
abbrev WorkerSlot := Bool × List String

/-- The `ImageCompressionTool` coordinator state touched by the dispatch
claims: the `files` map (id, processed flag) in insertion order, the worker
pool, the `processingQueue`, the `processing` flag, and the compress
control's disabled flag. -/
structure MState where
  files : List (String × Bool)
  slots : List WorkerSlot
  queue : List String
  processing : Bool
  btnDisabled : Bool
  deriving DecidableEq

/-- The count `Array.from(this.files.values()).filter(f => f.processed).length`
computed by `handleWorkerMessage`. -/
def completedOf (files : List (String × Bool)) : Nat :=
  (files.filter (fun f => f.2)).length

/-- Number of completed (processed) files in the state. -/
def completedCount (s : MState) : Nat := completedOf s.files

/-- this.files.size. -/
def totalCount (s : MState) : Nat := s.files.length

/-- Number of slots whose busy flag is set. -/
def busyCount (s : MState) : Nat := (s.slots.filter (fun sl => sl.1)).length

/-- this.workers.find(w => !this.workerStatus.get(w)): index of the first
slot whose busy flag is false. -/
def findIdleIdx : List WorkerSlot → Option Nat
  | [] => none
  | sl :: rest => if sl.1 = false then some 0 else (findIdleIdx rest).map (· + 1)

/-- imageFile.processed = true for the file with the given id. -/
def setProcessed (files : List (String × Bool)) (id : String) : List (String × Bool) :=
  files.map (fun f => if f.1 = id then (f.1, true) else f)

/-- processNext (the closure inside `startCompression`): return if the queue
is empty; find the first idle worker (return if none); shift the next file id
off the queue, mark the worker busy, and send the job to it (the job joins
the worker's mailbox). -/
def processNext (s : MState) : MState :=
  match s.queue with
  | [] => s
  | fileId :: rest =>
    match findIdleIdx s.slots with
    | none => s
    | some i =>
      match s.slots.get? i with
      | none => s
      | some sl => { s with queue := rest, slots := s.slots.set i (true, sl.2 ++ [fileId]) }

/-- startCompression: `if (this.files.size === 0 || this.processing) return;`
then set `processing`, disable the compress control, rebuild the queue from
all file ids, and invoke `processNext` `min(maxWorkers, total)` times (the
pool has `maxWorkers = slots.length` workers; the `setTimeout`-chained later
invocations of `processNext` are separate `dispatch` events). -/
def startCompression (s : MState) : MState :=
  if s.files.length = 0 ∨ s.processing = true then s
  else
    let s1 : MState :=
      { s with processing := true, btnDisabled := true, queue := s.files.map Prod.fst }
    Nat.repeat processNext (min s.slots.length s1.queue.length) s1

/-- handleWorkerMessage for a result arriving from worker `i`: the result's id
is the head of that worker's mailbox (workers answer their messages in FIFO
order, one result per message). In source order: mark the worker idle; drop
the result if its id is no longer in `files`; record success (failure results
change no file — only a toast is shown); recompute `completedCount` and
`total`; when equal, clear `processing` and re-enable the compress control;
otherwise, if the queue is non-empty, shift the next id, mark this worker
busy again and send the job to it. `success` abbreviates the code's
`result.success && result.compressedData` test (a worker success result
always carries data — see the C7 theorem). -/
def handleWorkerMessage (s : MState) (i : Nat) (success : Bool) : MState :=
  match s.slots.get? i with
  | none => s
  | some sl =>
    match sl.2 with
    | [] => s
    | resultId :: restJobs =>
      let slots1 := s.slots.set i (false, restJobs)
      match s.files.lookup resultId with
      | none => { s with slots := slots1 }
      | some _ =>
        let files1 := if success then setProcessed s.files resultId else s.files
        let s1 : MState := { s with slots := slots1, files := files1 }
        if completedOf files1 = files1.length then
          { s1 with processing := false, btnDisabled := false }
        else
          match s1.queue with
          | [] => s1
          | nextId :: rest =>
            { s1 with queue := rest, slots := slots1.set i (true, restJobs ++ [nextId]) }

/-- The events of the coordinator, all of which run atomically on the single
coordinating thread: a compress-button submission, one `processNext`
invocation (the initial loop and every `setTimeout`-scheduled call), and the
arrival of worker `i`'s next result with its success flag. -/
inductive MEvent where
  | submit
  | dispatch
  | result (i : Nat) (success : Bool)
  deriving DecidableEq

/-- One coordinator event. -/
def step (s : MState) : MEvent → MState
  | .submit => startCompression s
  | .dispatch => processNext s
  | .result i success => handleWorkerMessage s i success

/-- A whole interleaving of submissions, dispatches and result arrivals. -/
def run (s : MState) (es : List MEvent) : MState := es.foldl step s

/-- Slot sanity: at most one outstanding job, and an idle slot has none. -/
def SlotInv (sl : WorkerSlot) : Prop := sl.2.length ≤ 1 ∧ (sl.1 = true ∨ sl.2 = [])

instance (sl : WorkerSlot) : Decidable (SlotInv sl) := by
  unfold SlotInv; infer_instance

/-- Manager safety invariant: every slot satisfies `SlotInv`. -/
def Inv (s : MState) : Prop := ∀ sl ∈ s.slots, SlotInv sl

instance (s : MState) : Decidable (Inv s) := by
  unfold Inv; infer_instance

/-- The state after submitting a batch of one file to a two-worker pool. -/
def init1 : MState :=
  { files := [("a", false)]
    slots := [(false, []), (false, [])]
    queue := []
    processing := false
    btnDisabled := false }

/-- A mid-batch state: job "a" is in flight on worker 0, file "b" was added
to `files` after the batch started, the queue has drained. -/
def s9 : MState :=
  { files := [("a", false), ("b", false)]
    slots := [(true, ["a"]), (false, [])]
    queue := []
    processing := true
    btnDisabled := true }

/-- Initial state for the C6 witness: two files, a two-worker idle pool. -/
def initW : MState :=
  { files := [("a", false), ("b", false)]
    slots := [(false, []), (false, [])]
    queue := []
    processing := false
    btnDisabled := false }

/-- A C6 witness interleaving: submit, a redundant dispatch, both results
(one failure), and a trailing dispatch. -/
def esW : List MEvent := [.submit, .dispatch, .result 0 true, .result 1 false, .dispatch]

/-- An environment whose decode yields a 100×50 bitmap and whose encode
records into the returned bytes the dimensions of the canvas it was asked
to encode, making the actually-encoded canvas size observable. -/
def dimEnv : WorkerEnv :=
  { createImageBitmap := fun _ => .ok ⟨100, 50⟩
    convertToBlob := fun canvas _ _ _ _ => .ok [canvas.width, canvas.height] }

/-- An environment whose decode always rejects (corrupt bytes). -/
def failEnv : WorkerEnv :=
  { createImageBitmap := fun _ => .error "decode failed"
    convertToBlob := fun _ _ _ _ _ => .error "encode failed" }

/-- A job carrying `exifBuf6`, so the decoder reports orientation 6. -/
def msg6 : ProcessImageMessage :=
  { id := "job1"
    imageData := exifBuf6
    filename := "photo.jpg"
    options := { quality := 4 / 5, maxWidth := 1920, maxHeight := 1080, format := "jpeg" } }

/-- A job whose payload `failEnv` rejects. -/
def msgAny : ProcessImageMessage :=
  { id := "job2"
    imageData := [1, 2, 3]
    filename := "broken.jpg"
    options := { quality := 4 / 5, maxWidth := 1920, maxHeight := 1080, format := "jpeg" } }

theorem slotInv_of_mem_set {l : List WorkerSlot} {i : Nat} {a : WorkerSlot}
    (h : ∀ sl ∈ l, SlotInv sl) (ha : SlotInv a) : ∀ sl ∈ l.set i a, SlotInv sl := by
  intro sl hsl
  rcases List.mem_or_eq_of_mem_set hsl with h1 | h2
  · exact h sl h1
  · rw [h2]; exact ha

theorem findIdleIdx_spec (l : List WorkerSlot) : ∀ i : Nat, findIdleIdx l = some i →
    ∃ sl, l.get? i = some sl ∧ sl.1 = false := by
  induction l with
  | nil => intro i h; simp [findIdleIdx] at h
  | cons hd tl ih =>
    intro i h
    unfold findIdleIdx at h
    by_cases hb : hd.1 = false
    · rw [if_pos hb] at h
      cases h
      exact ⟨hd, rfl, hb⟩
    · rw [if_neg hb] at h
      cases hm : findIdleIdx tl with
      | none => rw [hm] at h; simp at h
      | some j =>
        rw [hm, Option.map_some'] at h
        cases h
        obtain ⟨sl, hget, hidle⟩ := ih j hm
        exact ⟨sl, hget, hidle⟩

theorem processNext_inv {s : MState} (h : Inv s) :
    Inv (processNext s) ∧ (processNext s).slots.length = s.slots.length := by
  unfold processNext
  split
  · exact ⟨h, rfl⟩
  · split
    · exact ⟨h, rfl⟩
    · rename_i i hf
      split
      · exact ⟨h, rfl⟩
      · rename_i sl hg
        obtain ⟨sl2, hget2, hidle⟩ := findIdleIdx_spec s.slots i hf
        rw [hget2] at hg
        injection hg with hg
        subst hg
        have hslinv : SlotInv sl2 := h _ (List.get?_mem hget2)
        have hempty : sl2.2 = [] := by
          rcases hslinv.2 with h1 | h2
          · rw [hidle] at h1; cases h1
          · exact h2
        refine ⟨slotInv_of_mem_set h ⟨?_, Or.inl rfl⟩, List.length_set ..⟩
        rw [hempty]; simp

theorem handleWorkerMessage_inv {s : MState} (i : Nat) (success : Bool) (h : Inv s) :
    Inv (handleWorkerMessage s i success) ∧
    (handleWorkerMessage s i success).slots.length = s.slots.length := by
  simp only [handleWorkerMessage]
  split
  · exact ⟨h, rfl⟩
  · rename_i sl hg
    split
    · exact ⟨h, rfl⟩
    · rename_i resultId restJobs hjobs
      have hslinv : SlotInv sl := h _ (List.get?_mem hg)
      have hrest : restJobs = [] := by
        have h1 := hslinv.1
        rw [hjobs] at h1
        simpa using h1
      have hinv1 : ∀ x ∈ s.slots.set i (false, restJobs), SlotInv x := by
        refine slotInv_of_mem_set h ⟨?_, Or.inr hrest⟩
        rw [hrest]; simp
      split
      · exact ⟨hinv1, List.length_set ..⟩
      · split
        all_goals (
          split
          · exact ⟨hinv1, List.length_set ..⟩
          · split
            · exact ⟨hinv1, List.length_set ..⟩
            · refine ⟨slotInv_of_mem_set hinv1 ⟨?_, Or.inl rfl⟩, ?_⟩
              · rw [hrest]; simp
              · rw [List.length_set, List.length_set])

theorem repeat_processNext_inv (n : Nat) : ∀ s : MState, Inv s →
    Inv (Nat.repeat processNext n s) ∧ (Nat.repeat processNext n s).slots.length = s.slots.length := by
  induction n with
  | zero => exact fun s h => ⟨h, rfl⟩
  | succ n ih =>
    intro s h
    have h1 := ih s h
    have h2 := processNext_inv h1.1
    exact ⟨h2.1, h2.2.trans h1.2⟩

theorem startCompression_inv {s : MState} (h : Inv s) :
    Inv (startCompression s) ∧ (startCompression s).slots.length = s.slots.length := by
  unfold startCompression
  split
  · exact ⟨h, rfl⟩
  · exact repeat_processNext_inv _ _ h

theorem step_inv {s : MState} (e : MEvent) (h : Inv s) :
    Inv (step s e) ∧ (step s e).slots.length = s.slots.length := by
  cases e with
  | submit => exact startCompression_inv h
  | dispatch => exact processNext_inv h
  | result i success => exact handleWorkerMessage_inv i success h

theorem run_inv (es : List MEvent) : ∀ s : MState, Inv s →
    Inv (run s es) ∧ (run s es).slots.length = s.slots.length := by
  induction es with
  | nil => exact fun s h => ⟨h, rfl⟩
  | cons e rest ih =>
    intro s h
    have h1 := step_inv e h
    have h2 := ih (step s e) h1.1
    exact ⟨h2.1, h2.2.trans h1.2⟩

theorem scanLoop_stable (b : List Nat) : ∀ fuel1 fuel2 offset : Nat,
    b.length - offset ≤ fuel1 → b.length - offset ≤ fuel2 →
    scanLoop b fuel1 offset = scanLoop b fuel2 offset := by
  intro fuel1
  induction fuel1 with
  | zero =>
    intro fuel2 offset h1 h2
    cases fuel2 with
    | zero => rfl
    | succ m =>
      show Except.ok 1 = scanLoop b (m + 1) offset
      unfold scanLoop
      rw [if_neg (by omega)]
  | succ n ih =>
    intro fuel2 offset h1 h2
    cases fuel2 with
    | zero =>
      show scanLoop b (n + 1) offset = Except.ok 1
      unfold scanLoop
      rw [if_neg (by omega)]
    | succ m =>
      simp only [scanLoop]
      split
      · split
        · rfl
        · split
          · rfl
          · split
            · rfl
            · split
              · rfl
              · rename_i len _
                exact ih m (offset + 2 + len) (by omega) (by omega)
      · rfl

theorem jsRound_natCast (n : Nat) : jsRound ((n : Nat) : ℚ) = n := by
  unfold jsRound
  rw [Rat.num_natCast, Rat.den_natCast]
  push_cast
  omega

theorem processImage_shape (env : WorkerEnv) (data : ProcessImageMessage) :
    (∃ msg, processImage env data = failureResult data msg) ∨
    ((processImage env data).success = true ∧
     (processImage env data).id = data.id ∧
     (processImage env data).filename = data.filename ∧
     (processImage env data).error = none ∧
     ∃ cd, (processImage env data).compressedData = some cd) := by
  simp only [processImage]
  split
  · exact Or.inl ⟨_, rfl⟩
  · split
    · exact Or.inl ⟨_, rfl⟩
    · split
      · exact Or.inl ⟨_, rfl⟩
      · exact Or.inr ⟨rfl, rfl, rfl, rfl, _, rfl⟩

/-- C1: the claim that `getImageOrientation` returns normally on every byte
buffer fails on the code. On the empty buffer the very first unguarded
`DataView.getUint16(0)` is out of range and throws a `RangeError`
(modelled as `.error ()`), and a truncated buffer `FF D8 FF` throws while
reading the marker at offset 2, instead of yielding the default value. -/
theorem spec_c1 :
    getImageOrientation [] = .error () ∧
    getImageOrientation [0xFF, 0xD8, 0xFF] = .error () := by decide

/-- C3: the claim that the decoder always returns a value in [1,8] (with 1
for malformed metadata) fails on the code. On `exifBuf9`, whose orientation
tag carries the malformed value field 9, `getImageOrientation` returns the
raw 16-bit value 9 — outside [1,8] — rather than the default 1. -/
theorem spec_c3 :
    getImageOrientation exifBuf9 = .ok 9 ∧ ¬(1 ≤ 9 ∧ 9 ≤ 8) := by decide

/-- C8: the marker/length walk terminates with finite progress — the offset
advances by at least 2 per iteration, so `b.length` loop iterations always
suffice: any fuel of at least `b.length` gives `scanLoop` the same value as
the `b.length`-fuelled run that `getImageOrientation` performs. -/
theorem spec_c8 (b : List Nat) (fuel : Nat) (h : b.length ≤ fuel) :
    scanLoop b fuel 2 = scanLoop b b.length 2 :=
  scanLoop_stable b fuel b.length 2 (by omega) (by omega)

/-- C8 witness: the stability instance on the concrete 32-byte Exif buffer
with a surplus fuel of 100. -/
theorem spec_c8_witness :
    exifBuf9.length ≤ 100 ∧ scanLoop exifBuf9 100 2 = scanLoop exifBuf9 exifBuf9.length 2 :=
  ⟨by decide, spec_c8 exifBuf9 100 (by decide)⟩

/-- C4: the code's bounding-box scaling (`planDimensions`) coincides with
the spec's description (`specPlanDimensions`) on all inputs — pass-through
exactly when both dimensions are within bounds, otherwise both dimensions
scaled by min(maxWidth/width, maxHeight/height) and rounded to nearest —
and the two concrete examples: 4000×2000 within (1920,1080) gives
1920×960, and 800×600 within (1920,1080) passes through unchanged. -/
theorem spec_c4 :
    (∀ width height maxWidth maxHeight : Nat,
      planDimensions width height maxWidth maxHeight =
        specPlanDimensions width height maxWidth maxHeight) ∧
    planDimensions 4000 2000 1920 1080 = (1920, 960) ∧
    planDimensions 800 600 1920 1080 = (800, 600) := by
  refine ⟨fun w h mw mh => ?_, ?_, ?_⟩
  · unfold planDimensions specPlanDimensions
    split_ifs with h1 h2 <;> first | rfl | omega
  · unfold planDimensions
    rw [if_pos (Or.inl (by decide))]
    have hm : min (((1920 : Nat) : ℚ) / ((4000 : Nat) : ℚ))
        (((1080 : Nat) : ℚ) / ((2000 : Nat) : ℚ)) = 12 / 25 := by
      rw [min_eq_left (by norm_num)]
      norm_num
    rw [hm]
    rw [show ((4000 : Nat) : ℚ) * (12 / 25) = ((1920 : Nat) : ℚ) from by norm_num]
    rw [show ((2000 : Nat) : ℚ) * (12 / 25) = ((960 : Nat) : ℚ) from by norm_num]
    rw [jsRound_natCast, jsRound_natCast]
  · unfold planDimensions
    rw [if_neg (by decide)]

/-- C5: fails on the code. For orientation 6 (a 90° rotation) of a scaled
100×50 image, `processImage` reports `compressedDimensions` 50×100
(swapped, as the claim says) — but `applyOrientation` re-assigns
`canvas.width/height` from the already pre-swapped canvas, cancelling the
swap, so the canvas actually encoded (its dimensions recorded into the
blob by `dimEnv`) is 100×50, unswapped: the output canvas dimensions
contradict both the claim and the result's own reported dimensions. -/
theorem spec_c5 :
    (processImage dimEnv msg6).success = true ∧
    (processImage dimEnv msg6).compressedDimensions = ⟨50, 100⟩ ∧
    (processImage dimEnv msg6).compressedData = some [100, 50] ∧
    (applyOrientation ⟨50, 100⟩ 6).1 = ⟨100, 50⟩ := by decide

/-- C7: every job produces exactly one result (`processImage` is a total
function of the job message), carrying the job's id and filename; any
decode/encode failure is caught into a failure result; and in every result
the compressed bytes are present iff `success` and the error message is
present iff failure. -/
theorem spec_c7 (env : WorkerEnv) (data : ProcessImageMessage) :
    (processImage env data).id = data.id ∧
    (processImage env data).filename = data.filename ∧
    ((processImage env data).compressedData.isSome ↔ (processImage env data).success = true) ∧
    ((processImage env data).error.isSome ↔ (processImage env data).success = false) := by
  rcases processImage_shape env data with ⟨msg, hEq⟩ | ⟨h1, h2, h3, h4, cd, h5⟩
  · rw [hEq]
    simp [failureResult]
  · refine ⟨h2, h3, ?_, ?_⟩
    · rw [h5, h1]
      simp
    · rw [h4, h1]
      simp

/-- C10: whenever `processImage` produces a failure result, that result
reports zero original and compressed sizes and 0×0 for both dimension
pairs, whatever the input was. -/
theorem spec_c10 (env : WorkerEnv) (data : ProcessImageMessage)
    (h : (processImage env data).success = false) :
    (processImage env data).originalSize = 0 ∧
    (processImage env data).compressedSize = 0 ∧
    (processImage env data).originalDimensions = ⟨0, 0⟩ ∧
    (processImage env data).compressedDimensions = ⟨0, 0⟩ := by
  rcases processImage_shape env data with ⟨msg, hEq⟩ | ⟨h1, _⟩
  · rw [hEq]
    exact ⟨rfl, rfl, rfl, rfl⟩
  · rw [h1] at h
    cases h

/-- C10 witness: a concrete failing job (decode rejects) with all four
zeroed fields. -/
theorem spec_c10_witness :
    (processImage failEnv msgAny).success = false ∧
    ((processImage failEnv msgAny).originalSize = 0 ∧
     (processImage failEnv msgAny).compressedSize = 0 ∧
     (processImage failEnv msgAny).originalDimensions = ⟨0, 0⟩ ∧
     (processImage failEnv msgAny).compressedDimensions = ⟨0, 0⟩) :=
  ⟨by decide, spec_c10 failEnv msgAny (by decide)⟩

/-- C2: fails on the code. A batch of one job is submitted and its single
result arrives as a failure: every submitted job has then reported in
(no busy slot, empty queue), yet the completed count is 0 — not N = 1 —
because `handleWorkerMessage` never marks a failed file as processed, so
`processing` stays true and the compress control stays disabled: the
manager never transitions back to Idle. -/
theorem spec_c2 :
    completedCount (run init1 [.submit, .result 0 false]) = 0 ∧
    totalCount (run init1 [.submit, .result 0 false]) = 1 ∧
    busyCount (run init1 [.submit, .result 0 false]) = 0 ∧
    (run init1 [.submit, .result 0 false]).queue = [] ∧
    (run init1 [.submit, .result 0 false]).processing = true ∧
    (run init1 [.submit, .result 0 false]).btnDisabled = true := by decide

/-- C6: over every interleaving of submissions, dispatches and result
arrivals from a state whose slots are sane, the number of busy slots never
exceeds the pool size, and no slot ever holds two jobs simultaneously. -/
theorem spec_c6 (init : MState) (es : List MEvent) (h : Inv init) :
    busyCount (run init es) ≤ init.slots.length ∧
    ∀ sl ∈ (run init es).slots, sl.2.length ≤ 1 := by
  obtain ⟨hinv, hlen⟩ := run_inv es init h
  refine ⟨?_, fun sl hsl => (hinv sl hsl).1⟩
  calc busyCount (run init es) ≤ (run init es).slots.length := List.length_filter_le _ _
    _ = init.slots.length := hlen

/-- C6 witness: a concrete two-worker pool with a five-event interleaving
including a failure result and redundant dispatches. -/
theorem spec_c6_witness :
    Inv initW ∧
    (busyCount (run initW esW) ≤ initW.slots.length ∧
     ∀ sl ∈ (run initW esW).slots, sl.2.length ≤ 1) :=
  ⟨by decide, spec_c6 initW esW (by decide)⟩

/-- C9 counterexample: the claim says a submission while the manager is
mid-batch appends the new job ids to the pending work rather than being
ignored; but from the concrete mid-batch state `s9` — where file "b" was
added after the batch started and sits in no queue and no slot —
`startCompression` returns the state unchanged: nothing is appended,
"b" is not dispatched; the submission is ignored. -/
theorem spec_c9_cex :
    startCompression s9 = s9 ∧ ("b", false) ∈ s9.files ∧ s9.queue = [] ∧
    ∀ sl ∈ s9.slots, "b" ∉ sl.2 := by decide

/-- C9 (amended): a submission while a batch is processing is a no-op:
`startCompression` returns immediately, leaving the queue, the slots and
all other state unchanged — it neither appends to the batch nor starts a
second concurrent batch. -/
theorem spec_c9 (s : MState) (h : s.processing = true) : startCompression s = s := by
  unfold startCompression
  rw [if_pos (Or.inr h)]

/-- C9 witness: the no-op applied at the concrete mid-batch state `s9`. -/
theorem spec_c9_witness : s9.processing = true ∧ startCompression s9 = s9 :=
  ⟨rfl, spec_c9 s9 rfl⟩

end ImageTool
